import Mathlib

/-!
Shallow embedding of `crates/bevy_asset_preview/src/render/mod.rs`.

Modelling conventions, chosen once and used throughout:
* `Handle<Scene>` and `AssetId<Scene>` are both modelled as `Nat`: a bevy
  handle compares and hashes by its id, so the handle is identified with
  the id it carries.  `Handle<Image>` and `InstanceId` are likewise `Nat`.
* `Entity` is a `Nat`; `Entity::PLACEHOLDER` is `0` and freshly spawned
  entities take ids from a counter starting at `1`.
* `Commands` is modelled as a log of the commands issued plus the fresh
  entity counter; command application (spawn, despawn, insert) is recorded,
  not executed against a world.  Deferred application is equivalent to
  immediate application here because every system reads each entity at
  most once per run.
* The `u8` bitmask `available_layers` is a `Nat` kept `< 256`; `!0u8` is
  `255`, `trailing_zeros` of a `u8` is `u8TrailingZeros` (8 when zero).
* `HashMap` is an association list with replace-on-insert, `HashSet` is a
  duplicate-free list (`List.insert` / `List.erase`); the unordered
  iteration of `queue.iter().nth(0)` is modelled by taking the list head
  (the source imposes no order on the set).
* ECS per-entity state that the systems touch (the `PreviewRenderedFrames`
  counter component living on each slot camera) is modelled per layer,
  since each occupied layer owns exactly one camera; despawning the camera
  removes the component, modelled by setting the layer's counter to `none`.
* Events (`PreviewRendered`) are a pending list; `EventReader.read` drains
  everything emitted since the previous read.
* `scene_spawner.instance_is_ready` is an external input: each tick takes
  a readiness predicate `ready : Nat → Bool` over instance ids.
* The `.unwrap()` on `scene_instances[finished.layer]` in `update_queue`
  makes the completion phase return `Option`: `none` models the panic.
-/

set_option maxRecDepth 8192

namespace AssetPreview

def BASE_PREVIEW_LAYER : Nat := 128

def PREVIEW_LAYERS_COUNT : Nat := 8

def PREVIEW_RENDER_FRAMES : Nat := 8

/-- `u8::trailing_zeros`, restricted to values below 256: the index of the
least set bit, or 8 when the byte is zero. -/
def u8TrailingZeros (n : Nat) : Nat :=
  (((List.range 8).filter (fun i => n.testBit i)).head?).getD 8

/-- One recorded command: the side effects `occupy` and `free` issue
against the ECS world. -/
inductive Cmd where
  | spawnLight (layerTag entity : Nat)
  | spawnCamera (layerTag target entity : Nat)
  | despawn (entity : Nat)
  deriving DecidableEq, Repr

/-- The `Commands` queue: fresh entity allocator plus the log of issued
commands. -/
structure Commands where
  nextEntity : Nat
  log : List Cmd
  deriving DecidableEq, Repr

/-- `PreviewSceneState`: the fixed slot pool.  The parallel fixed-size
arrays of the source are total functions from the layer index; only
indices below `PREVIEW_LAYERS_COUNT` are ever used. -/
structure PreviewSceneState where
  available_layers : Nat
  cameras : Nat → Nat
  lights : Nat → Nat
  scene_handles : Nat → Nat
  scene_instances : Nat → Option Nat
  applied_layer : Nat → Bool
  render_targets : Nat → Nat

/-- `PreviewSceneState::default()`: all layers free (`!0u8`), placeholder
entities, default handles, no instances, no applied layers. -/
def initState : PreviewSceneState where
  available_layers := 255
  cameras := fun _ => 0
  lights := fun _ => 0
  scene_handles := fun _ => 0
  scene_instances := fun _ => none
  applied_layer := fun _ => false
  render_targets := fun _ => 0

/-- `PreviewSceneState::is_full`. -/
def is_full (st : PreviewSceneState) : Bool :=
  u8TrailingZeros st.available_layers == PREVIEW_LAYERS_COUNT

/-- `PreviewSceneState::occupy`: no-op when full, otherwise claim the
lowest free layer, spawn that layer's light and camera (tagged with render
layer `layer + BASE_PREVIEW_LAYER`, camera targeting the render target),
and bind handle, instance and target to the layer. -/
def occupy (st : PreviewSceneState) (handle instanceId renderTarget : Nat)
    (c : Commands) : PreviewSceneState × Commands :=
  if is_full st then (st, c)
  else
    let layer := u8TrailingZeros st.available_layers
    let lightEnt := c.nextEntity
    let camEnt := c.nextEntity + 1
    ({ st with
        available_layers := st.available_layers &&& (255 ^^^ (1 <<< layer)),
        lights := Function.update st.lights layer lightEnt,
        cameras := Function.update st.cameras layer camEnt,
        render_targets := Function.update st.render_targets layer renderTarget,
        scene_handles := Function.update st.scene_handles layer handle,
        scene_instances := Function.update st.scene_instances layer (some instanceId) },
      { nextEntity := c.nextEntity + 2,
        log := c.log ++
          [Cmd.spawnLight (layer + BASE_PREVIEW_LAYER) lightEnt,
           Cmd.spawnCamera (layer + BASE_PREVIEW_LAYER) renderTarget camEnt] })

/-- `PreviewSceneState::free`: set the layer's bit, despawn its light and
camera, reset `applied_layer`, clear the instance.  The scene handle and
render target entries are left as they are, exactly as in the source. -/
def free (st : PreviewSceneState) (layer : Nat) (c : Commands) :
    PreviewSceneState × Commands :=
  ({ st with
      available_layers := st.available_layers ||| (1 <<< layer),
      applied_layer := Function.update st.applied_layer layer false,
      scene_instances := Function.update st.scene_instances layer none },
    { c with
      log := c.log ++ [Cmd.despawn (st.lights layer), Cmd.despawn (st.cameras layer)] })

/-- Association-list lookup, modelling `HashMap::get` / `Entry` probing. -/
def lookupAssoc : List (Nat × Nat) → Nat → Option Nat
  | [], _ => none
  | (k, v) :: rest, key => if key = k then some v else lookupAssoc rest key

/-- Association-list insert with replacement, modelling `HashMap::insert`. -/
def insertAssoc : List (Nat × Nat) → Nat → Nat → List (Nat × Nat)
  | [], k, v => [(k, v)]
  | (k0, v0) :: rest, k, v =>
      if k = k0 then (k, v) :: rest else (k0, v0) :: insertAssoc rest k v

/-- `PrerenderedScenes`: cached results, in-flight marker set, pending
queue. -/
structure PrerenderedScenes where
  rendered : List (Nat × Nat)
  rendering : List Nat
  queue : List Nat
  deriving DecidableEq, Repr

/-- `PrerenderedScenes::get_or_schedule`: cache hit returns the stored
target and changes nothing; otherwise, if the id is not already marked
rendering, enqueue the handle and mark the id rendering; returns `none`. -/
def get_or_schedule (s : PrerenderedScenes) (handle : Nat) :
    Option Nat × PrerenderedScenes :=
  match lookupAssoc s.rendered handle with
  | some target => (some target, s)
  | none =>
      if handle ∈ s.rendering then (none, s)
      else (none, { s with
        queue := s.queue.insert handle,
        rendering := s.rendering.insert handle })

/-- The whole scheduler state: the two resources, the per-layer settle
counters (the `PreviewRenderedFrames` component on each slot camera), the
pending `PreviewRendered` events, the `SceneSpawner` and `Assets<Image>`
allocators, and audit logs of spawned/despawned instances, issued
commands, and layer-tagging passes. -/
structure Sys where
  pre : PrerenderedScenes
  st : PreviewSceneState
  counters : Nat → Option Nat
  events : List Nat
  nextInstance : Nat
  nextImage : Nat
  spawnedFor : List Nat
  despawned : List Nat
  cmds : Commands
  tagLog : List Nat

def setQueue (s : Sys) (q : List Nat) : Sys :=
  { s with pre := { s.pre with queue := q } }

def setEvents (s : Sys) (es : List Nat) : Sys :=
  { s with events := es }

/-- One iteration of the admission loop body of `update_queue`: spawn the
scene instance, allocate a fresh render target image, and occupy the
lowest free layer (whose camera carries a fresh zero settle counter). -/
def admitOne (handle : Nat) (s : Sys) : Sys :=
  let inst := s.nextInstance
  let target := s.nextImage
  let layer := u8TrailingZeros s.st.available_layers
  let oc := occupy s.st handle inst target s.cmds
  { s with
    st := oc.1
    cmds := oc.2
    nextInstance := s.nextInstance + 1
    nextImage := s.nextImage + 1
    spawnedFor := s.spawnedFor ++ [handle]
    counters := if is_full s.st then s.counters
                else Function.update s.counters layer (some 0) }

/-- The admission loop of `update_queue`: while the pool is not full, pop
one handle from the pending queue and admit it. -/
def admissionGo : List Nat → Sys → Sys
  | [], s => setQueue s []
  | handle :: rest, s =>
      if is_full s.st then setQueue s (handle :: rest)
      else admissionGo rest (admitOne handle s)

def admission (s : Sys) : Sys :=
  admissionGo s.pre.queue s

/-- One iteration of the completion loop body of `update_queue` for a
`PreviewRendered { layer }` event: move the scene from rendering to
rendered with the slot's target, despawn the instance, free the slot.
The `.unwrap()` on the slot's instance is the `none` case. -/
def handleEvent (s : Sys) (layer : Nat) : Option Sys :=
  let sceneHandle := s.st.scene_handles layer
  let renderTarget := s.st.render_targets layer
  match s.st.scene_instances layer with
  | none => none
  | some inst =>
      let fr := free s.st layer s.cmds
      some { s with
        pre := { s.pre with
          rendering := s.pre.rendering.erase sceneHandle,
          rendered := insertAssoc s.pre.rendered sceneHandle renderTarget }
        st := fr.1
        cmds := fr.2
        despawned := s.despawned ++ [inst]
        counters := Function.update s.counters layer none }

/-- The completion-draining loop of `update_queue`, over the drained
event list. -/
def completionPhase : Sys → List Nat → Option Sys
  | s, [] => some s
  | s, layer :: rest =>
      match handleEvent s layer with
      | none => none
      | some s2 => completionPhase s2 rest

/-- `update_queue`: admission phase first, then drain all pending
completion events.  `none` models the `.unwrap()` panic. -/
def update_queue (s : Sys) : Option Sys :=
  let s1 := admission s
  completionPhase (setEvents s1 []) s1.events

/-- `is_some_and(instance_is_ready)` over an optional instance. -/
def instReady (ready : Nat → Bool) (inst : Option Nat) : Bool :=
  match inst with
  | some i => ready i
  | none => false

/-- Does the settle counter of this layer fire its completion event this
tick? -/
def counterEmit (ready : Nat → Bool) (s : Sys) (layer : Nat) : Bool :=
  match s.counters layer with
  | some n =>
      instReady ready (s.st.scene_instances layer) &&
        decide (PREVIEW_RENDER_FRAMES ≤ n + 1)
  | none => false

/-- `update_preview_frames_counter`: for every camera still carrying a
settle counter, if the layer's instance is ready the counter advances;
on reaching `PREVIEW_RENDER_FRAMES` the component is removed and a
`PreviewRendered` event is sent.  Layers are independent, so the query
loop is a pointwise update plus the batch of emitted events. -/
def counterStep (ready : Nat → Bool) (s : Sys) : Sys :=
  { s with
    counters := fun layer =>
      match s.counters layer with
      | none => none
      | some n =>
          if instReady ready (s.st.scene_instances layer) then
            if PREVIEW_RENDER_FRAMES ≤ n + 1 then none else some (n + 1)
          else some n
    events := s.events ++ (List.range 8).filter (fun layer => counterEmit ready s layer) }

/-- Does `change_render_layers` tag this layer this tick? -/
def tagNow (ready : Nat → Bool) (s : Sys) (layer : Nat) : Bool :=
  match s.st.scene_instances layer with
  | some inst => !(s.st.applied_layer layer) && ready inst
  | none => false

/-- `change_render_layers`: for each of the 8 layers holding an instance
that is ready and not yet tagged, set `applied_layer` and tag the
instance's entities (recorded in `tagLog`, one entry per tagging pass). -/
def taggerStep (ready : Nat → Bool) (s : Sys) : Sys :=
  { s with
    st := { s.st with
      applied_layer := fun layer =>
        if decide (layer < 8) && tagNow ready s layer then true
        else s.st.applied_layer layer }
    tagLog := s.tagLog ++ (List.range 8).filter (fun layer => tagNow ready s layer) }

/-- A request from a caller: `PrerenderedScenes::get_or_schedule`,
keeping only the state effect. -/
def reqStep (s : Sys) (handle : Nat) : Sys :=
  { s with pre := (get_or_schedule s.pre handle).2 }

/-- One scheduler tick: `update_queue` (reading the events emitted since
the previous tick), then `change_render_layers`, then
`update_preview_frames_counter` with this tick's readiness. -/
def tickO (ready : Nat → Bool) (s : Sys) : Option Sys :=
  match update_queue s with
  | none => none
  | some s1 => some (counterStep ready (taggerStep ready s1))

/-- The initial world: default resources, no events, empty logs. -/
def initSys : Sys where
  pre := { rendered := [], rendering := [], queue := [] }
  st := initState
  counters := fun _ => none
  events := []
  nextInstance := 0
  nextImage := 1
  spawnedFor := []
  despawned := []
  cmds := { nextEntity := 1, log := [] }
  tagLog := []

/-- Reachable scheduler states: the initial world, closed under caller
requests and successful scheduler ticks. -/
inductive Reachable : Sys → Prop where
  | init : Reachable initSys
  | request (s : Sys) (handle : Nat) (h : Reachable s) : Reachable (reqStep s handle)
  | tick (s s2 : Sys) (ready : Nat → Bool) (h : Reachable s)
      (hstep : tickO ready s = some s2) : Reachable s2

/-- Iterated counter system over a readiness trace (one occupation, no
intervening scheduler tick). -/
def iterCounter : List (Nat → Bool) → Sys → Sys
  | [], s => s
  | r :: rs, s => iterCounter rs (counterStep r s)

/-- Iterated layer tagger over a readiness trace. -/
def iterTagger : List (Nat → Bool) → Sys → Sys
  | [], s => s
  | r :: rs, s => iterTagger rs (taggerStep r s)

def maxRunAux : List Bool → Nat → Nat → Nat
  | [], cur, best => max cur best
  | b :: rest, cur, best =>
      if b then maxRunAux rest (cur + 1) best
      else maxRunAux rest 0 (max cur best)

/-- Length of the longest run of consecutive `true` entries. -/
def maxRun (l : List Bool) : Nat := maxRunAux l 0 0

/-- One tick with a fixed readiness predicate, defaulting to the input
state on a completion-phase panic (which never happens from reachable
states, as proved below). -/
def tickReady (r : Nat → Bool) (s : Sys) : Sys := (tickO r s).getD s

/-- Iterated ticks with everything reporting ready. -/
def runTicks : Nat → Sys → Sys
  | 0, s => s
  | n + 1, s => runTicks n (tickReady (fun _ => true) s)

/-- Fixture: the state after requesting scene 5 and running one tick with
nothing ready yet: scene 5 occupies slot 0 (instance 0, render target 1)
with a zero settle counter. -/
def sysOcc : Sys := tickReady (fun _ => false) (reqStep initSys 5)

/-- Fixture: the state after requesting scene 5 and running nine ticks
with readiness always true: the occupation of slot 0 completed, scene 5
is cached, and slot 0 has been released. -/
def sysFreed : Sys := runTicks 9 (reqStep initSys 5)

/-- Fixture readiness trace: ready on 7 consecutive ticks, then not
ready, then ready once more — 9 ticks, 8 of them ready, with no run of 8
consecutive ready ticks. -/
def rsGap : List (Nat → Bool) :=
  List.replicate 7 (fun _ => true) ++ [fun _ => false, fun _ => true]

/-- Fixture readiness trace: ready on 8 consecutive ticks. -/
def rs8 : List (Nat → Bool) := List.replicate 8 (fun _ => true)

/-- Fixture: a full pool (all 8 slots occupied by scenes 0..7), one
pending completion event for layer 2, and scene 9 waiting in the queue. -/
def sysFull : Sys where
  pre := { rendered := [], rendering := [0, 1, 2, 3, 4, 5, 6, 7, 9], queue := [9] }
  st := { available_layers := 0
          cameras := fun l => l + 10
          lights := fun l => l + 20
          scene_handles := fun l => l
          scene_instances := fun l => if l < 8 then some l else none
          applied_layer := fun l => decide (l < 8)
          render_targets := fun l => l + 30 }
  counters := fun _ => none
  events := [2]
  nextInstance := 8
  nextImage := 9
  spawnedFor := [0, 1, 2, 3, 4, 5, 6, 7]
  despawned := []
  cmds := { nextEntity := 17, log := [] }
  tagLog := [0, 1, 2, 3, 4, 5, 6, 7]

/-- Fixture: an empty command queue with the entity allocator at 1. -/
def cmds0 : Commands := { nextEntity := 1, log := [] }

example : sysOcc.st.scene_instances 0 = some 0 := by decide
example : sysOcc.counters 0 = some 0 := by decide
example : sysOcc.events = [] := by decide
example : sysFreed.st.scene_instances 0 = none := by decide
example : sysFreed.st.scene_handles 0 = 5 := by decide
example : lookupAssoc sysFreed.pre.rendered 5 = some 1 := by decide

example : u8TrailingZeros 255 = 0 := by decide
example : u8TrailingZeros 0 = 8 := by decide
example : u8TrailingZeros 4 = 2 := by decide
example : is_full initState = false := by decide
example : maxRun [true, true, false, true] = 2 := by decide

/-! ### Bit-level facts about the `u8` free mask, settled by enumeration. -/

theorem u8tz_eight_iff : ∀ a, a < 256 → (u8TrailingZeros a = 8 ↔ a = 0) := by decide

theorem u8tz_spec : ∀ a, a < 256 → a ≠ 0 →
    u8TrailingZeros a < 8 ∧ a.testBit (u8TrailingZeros a) = true ∧
      ∀ j, j < u8TrailingZeros a → a.testBit j = false := by decide

theorem clearBit_testBit : ∀ a, a < 256 → ∀ l, l < 8 → ∀ j, j < 8 →
    (a &&& (255 ^^^ (1 <<< l))).testBit j = (a.testBit j && !(j == l)) := by decide

theorem clearBit_lt : ∀ a, a < 256 → ∀ l, l < 8 →
    a &&& (255 ^^^ (1 <<< l)) < 256 := by decide

theorem setBit_testBit : ∀ a, a < 256 → ∀ l, l < 8 → ∀ j, j < 8 →
    (a ||| (1 <<< l)).testBit j = (a.testBit j || (j == l)) := by decide

theorem setBit_lt : ∀ a, a < 256 → ∀ l, l < 8 → a ||| (1 <<< l) < 256 := by decide

theorem is_full_eq_true_iff (st : PreviewSceneState)
    (h : st.available_layers < 256) :
    is_full st = true ↔ st.available_layers = 0 := by
  unfold is_full PREVIEW_LAYERS_COUNT
  rw [beq_iff_eq]
  exact u8tz_eight_iff st.available_layers h

theorem not_full_spec (st : PreviewSceneState) (h : st.available_layers < 256)
    (hf : is_full st = false) :
    u8TrailingZeros st.available_layers < 8 ∧
      st.available_layers.testBit (u8TrailingZeros st.available_layers) = true ∧
      ∀ j, j < u8TrailingZeros st.available_layers →
        st.available_layers.testBit j = false := by
  have hne : st.available_layers ≠ 0 := by
    intro h0
    have := (is_full_eq_true_iff st h).mpr h0
    rw [this] at hf
    exact Bool.noConfusion hf
  exact u8tz_spec st.available_layers h hne

/-! ### Association-list lemmas. -/

theorem lookupAssoc_insertAssoc_self (m : List (Nat × Nat)) (k v : Nat) :
    lookupAssoc (insertAssoc m k v) k = some v := by
  induction m with
  | nil => simp [insertAssoc, lookupAssoc]
  | cons hd tl ih =>
    obtain ⟨k0, v0⟩ := hd
    by_cases hk : k = k0
    · simp [insertAssoc, lookupAssoc, hk]
    · simp [insertAssoc, lookupAssoc, hk, ih]

theorem lookupAssoc_insertAssoc_ne (m : List (Nat × Nat)) (k v k2 : Nat)
    (h : k2 ≠ k) : lookupAssoc (insertAssoc m k v) k2 = lookupAssoc m k2 := by
  induction m with
  | nil => simp [insertAssoc, lookupAssoc, h]
  | cons hd tl ih =>
    obtain ⟨k0, v0⟩ := hd
    by_cases hk : k = k0
    · subst hk
      simp [insertAssoc, lookupAssoc, h]
    · by_cases hk2 : k2 = k0
      · simp [insertAssoc, lookupAssoc, hk, hk2]
      · simp [insertAssoc, lookupAssoc, hk, hk2, ih]

/-! ### The global invariant of reachable scheduler states. -/

structure Inv (s : Sys) : Prop where
  al_lt : s.st.available_layers < 256
  bit_iff : ∀ l, l < 8 →
      (s.st.available_layers.testBit l = true ↔ s.st.scene_instances l = none)
  hi_none : ∀ l, 8 ≤ l → s.st.scene_instances l = none
  free_clean : ∀ l, s.st.scene_instances l = none →
      s.st.applied_layer l = false ∧ s.counters l = none
  ev_ok : ∀ l, l ∈ s.events →
      l < 8 ∧ (s.st.scene_instances l).isSome ∧ s.counters l = none
  ev_nodup : s.events.Nodup
  q_nodup : s.pre.queue.Nodup
  q_ok : ∀ id, id ∈ s.pre.queue →
      id ∈ s.pre.rendering ∧ s.spawnedFor.count id = 0
  spawn_le : ∀ id, s.spawnedFor.count id ≤ 1
  spawn_state : ∀ id, s.spawnedFor.count id = 1 →
      id ∈ s.pre.rendering ∨ (lookupAssoc s.pre.rendered id).isSome
  slot_ok : ∀ l, (s.st.scene_instances l).isSome →
      s.st.scene_handles l ∈ s.pre.rendering ∧
      s.st.scene_handles l ∉ s.pre.queue ∧
      s.spawnedFor.count (s.st.scene_handles l) = 1
  slot_distinct : ∀ l l2, l ≠ l2 → (s.st.scene_instances l).isSome →
      (s.st.scene_instances l2).isSome →
      s.st.scene_handles l ≠ s.st.scene_handles l2

theorem inv_init : Inv initSys := by
  constructor <;> first | decide | simp [initSys, initState]

@[simp] theorem setQueue_st (s : Sys) (q : List Nat) : (setQueue s q).st = s.st := rfl

@[simp] theorem setQueue_queue (s : Sys) (q : List Nat) :
    (setQueue s q).pre.queue = q := rfl

@[simp] theorem setQueue_rendering (s : Sys) (q : List Nat) :
    (setQueue s q).pre.rendering = s.pre.rendering := rfl

@[simp] theorem setQueue_rendered (s : Sys) (q : List Nat) :
    (setQueue s q).pre.rendered = s.pre.rendered := rfl

@[simp] theorem setQueue_counters (s : Sys) (q : List Nat) :
    (setQueue s q).counters = s.counters := rfl

@[simp] theorem setQueue_events (s : Sys) (q : List Nat) :
    (setQueue s q).events = s.events := rfl

@[simp] theorem setQueue_spawnedFor (s : Sys) (q : List Nat) :
    (setQueue s q).spawnedFor = s.spawnedFor := rfl

@[simp] theorem setQueue_despawned (s : Sys) (q : List Nat) :
    (setQueue s q).despawned = s.despawned := rfl

@[simp] theorem setQueue_cmds (s : Sys) (q : List Nat) :
    (setQueue s q).cmds = s.cmds := rfl

@[simp] theorem setQueue_tagLog (s : Sys) (q : List Nat) :
    (setQueue s q).tagLog = s.tagLog := rfl

@[simp] theorem setEvents_st (s : Sys) (es : List Nat) :
    (setEvents s es).st = s.st := rfl

@[simp] theorem setEvents_events (s : Sys) (es : List Nat) :
    (setEvents s es).events = es := rfl

@[simp] theorem setEvents_pre (s : Sys) (es : List Nat) :
    (setEvents s es).pre = s.pre := rfl

@[simp] theorem setEvents_rendering (s : Sys) (es : List Nat) :
    (setEvents s es).pre.rendering = s.pre.rendering := rfl

@[simp] theorem setEvents_rendered (s : Sys) (es : List Nat) :
    (setEvents s es).pre.rendered = s.pre.rendered := rfl

@[simp] theorem setEvents_queue (s : Sys) (es : List Nat) :
    (setEvents s es).pre.queue = s.pre.queue := rfl

@[simp] theorem setEvents_counters (s : Sys) (es : List Nat) :
    (setEvents s es).counters = s.counters := rfl

@[simp] theorem setEvents_spawnedFor (s : Sys) (es : List Nat) :
    (setEvents s es).spawnedFor = s.spawnedFor := rfl

/-- An id that is neither marked rendering nor cached has never been
spawned. -/
theorem count_zero_of_untracked (s : Sys) (hs : Inv s) (id : Nat)
    (hr : id ∉ s.pre.rendering) (hl : lookupAssoc s.pre.rendered id = none) :
    s.spawnedFor.count id = 0 := by
  have hle := hs.spawn_le id
  rcases Nat.lt_or_ge (s.spawnedFor.count id) 1 with h | h
  · omega
  · have h1 : s.spawnedFor.count id = 1 := by omega
    rcases hs.spawn_state id h1 with h2 | h2
    · exact absurd h2 hr
    · rw [hl] at h2
      simp at h2

theorem inv_reqStep (s : Sys) (hs : Inv s) (handle : Nat) :
    Inv (reqStep s handle) := by
  unfold reqStep get_or_schedule
  cases hl : lookupAssoc s.pre.rendered handle with
  | some t => exact hs
  | none =>
    by_cases hr : handle ∈ s.pre.rendering
    · simp only [hr, if_true]
      exact hs
    · simp only [hr, if_false]
      have hcnt := count_zero_of_untracked s hs handle hr hl
      constructor
      · exact hs.al_lt
      · exact hs.bit_iff
      · exact hs.hi_none
      · exact hs.free_clean
      · exact hs.ev_ok
      · exact hs.ev_nodup
      · exact hs.q_nodup.insert
      · intro id hid
        rcases List.mem_insert_iff.mp hid with h | h
        · subst h
          exact ⟨List.mem_insert_self id s.pre.rendering, hcnt⟩
        · obtain ⟨h1, h2⟩ := hs.q_ok id h
          exact ⟨List.mem_insert_of_mem h1, h2⟩
      · exact hs.spawn_le
      · intro id h1
        rcases hs.spawn_state id h1 with h2 | h2
        · exact Or.inl (List.mem_insert_of_mem h2)
        · exact Or.inr h2
      · intro l hocc
        obtain ⟨h1, h2, h3⟩ := hs.slot_ok l hocc
        refine ⟨List.mem_insert_of_mem h1, ?_, h3⟩
        intro hmem
        rcases List.mem_insert_iff.mp hmem with h4 | h4
        · rw [h4] at h3
          omega
        · exact h2 h4
      · exact hs.slot_distinct

/-! ### Admission phase preserves the invariant. -/

theorem inv_admitOne (s : Sys) (handle : Nat) (rest : List Nat)
    (hs : Inv (setQueue s (handle :: rest))) (hnf : is_full s.st = false) :
    Inv (setQueue (admitOne handle s) rest) := by
  have hal : s.st.available_layers < 256 := hs.al_lt
  obtain ⟨hl0lt, hl0bit, hl0min⟩ := not_full_spec s.st hal hnf
  set l0 := u8TrailingZeros s.st.available_layers with hl0def
  have hinst0 : s.st.scene_instances l0 = none := (hs.bit_iff l0 hl0lt).mp hl0bit
  obtain ⟨hhr, hhc⟩ := hs.q_ok handle (by simp)
  simp only [setQueue_rendering, setQueue_spawnedFor] at hhr hhc
  have hqn : (handle :: rest).Nodup := hs.q_nodup
  have hhnotrest : handle ∉ rest := (List.nodup_cons.mp hqn).1
  have hstep_al : (admitOne handle s).st.available_layers =
      s.st.available_layers &&& (255 ^^^ (1 <<< l0)) := by
    simp [admitOne, occupy, hnf]
  have hstep_inst : (admitOne handle s).st.scene_instances =
      Function.update s.st.scene_instances l0 (some s.nextInstance) := by
    simp [admitOne, occupy, hnf]
  have hstep_handles : (admitOne handle s).st.scene_handles =
      Function.update s.st.scene_handles l0 handle := by
    simp [admitOne, occupy, hnf]
  have hstep_applied : (admitOne handle s).st.applied_layer =
      s.st.applied_layer := by
    simp [admitOne, occupy, hnf]
  have hstep_counters : (admitOne handle s).counters =
      Function.update s.counters l0 (some 0) := by
    simp [admitOne, hnf]
  have hstep_spawned : (admitOne handle s).spawnedFor = s.spawnedFor ++ [handle] := rfl
  have hstep_pre : (admitOne handle s).pre = s.pre := rfl
  have hstep_events : (admitOne handle s).events = s.events := rfl
  have hcount : ∀ id, (s.spawnedFor ++ [handle]).count id =
      s.spawnedFor.count id + if id = handle then 1 else 0 := by
    intro id
    by_cases h : id = handle <;> simp [List.count_append, h]
  constructor
  · show (admitOne handle s).st.available_layers < 256
    rw [hstep_al]
    exact clearBit_lt _ hal _ hl0lt
  · intro l hl
    show (admitOne handle s).st.available_layers.testBit l = true ↔ _
    rw [hstep_al]
    simp only [setQueue_st, hstep_inst]
    rw [clearBit_testBit _ hal _ hl0lt _ hl]
    by_cases hll : l = l0
    · subst hll
      simp
    · rw [Function.update_noteq hll]
      have hb : (l == l0) = false := beq_eq_false_iff_ne.mpr hll
      rw [hb]
      simp only [Bool.not_false, Bool.and_true]
      exact hs.bit_iff l hl
  · intro l hl
    simp only [setQueue_st, hstep_inst]
    have hll : l ≠ l0 := by omega
    rw [Function.update_noteq hll]
    exact hs.hi_none l hl
  · intro l hnone
    simp only [setQueue_st, hstep_inst] at hnone
    simp only [setQueue_st, setQueue_counters, hstep_applied, hstep_counters]
    by_cases hll : l = l0
    · subst hll
      rw [Function.update_same] at hnone
      exact absurd hnone (by simp)
    · rw [Function.update_noteq hll] at hnone
      rw [Function.update_noteq hll]
      exact hs.free_clean l hnone
  · intro l hlev
    simp only [setQueue_events, hstep_events] at hlev
    obtain ⟨h1, h2, h3⟩ := hs.ev_ok l hlev
    simp only [setQueue_st, setQueue_counters] at h2 h3
    have hll : l ≠ l0 := by
      intro h
      rw [h, hinst0] at h2
      simp at h2
    simp only [setQueue_st, setQueue_counters, hstep_inst, hstep_counters]
    rw [Function.update_noteq hll, Function.update_noteq hll]
    exact ⟨h1, h2, h3⟩
  · show (admitOne handle s).events.Nodup
    rw [hstep_events]
    exact hs.ev_nodup
  · show rest.Nodup
    exact (List.nodup_cons.mp hqn).2
  · intro id hid
    have hidq : id ∈ handle :: rest := List.mem_cons_of_mem _ hid
    obtain ⟨h1, h2⟩ := hs.q_ok id hidq
    simp only [setQueue_rendering, setQueue_spawnedFor] at h1 h2
    have hidh : id ≠ handle := by
      intro h
      subst h
      exact hhnotrest hid
    simp only [setQueue_rendering, setQueue_spawnedFor, hstep_pre, hstep_spawned]
    refine ⟨h1, ?_⟩
    rw [hcount id]
    simp [hidh, h2]
  · intro id
    simp only [setQueue_spawnedFor, hstep_spawned]
    rw [hcount id]
    by_cases h : id = handle
    · subst h
      simp [hhc]
    · rw [if_neg h, Nat.add_zero]
      exact hs.spawn_le id
  · intro id hcnt
    simp only [setQueue_spawnedFor, hstep_spawned] at hcnt
    rw [hcount id] at hcnt
    simp only [setQueue_rendering, setQueue_rendered, hstep_pre]
    by_cases h : id = handle
    · subst h
      exact Or.inl hhr
    · rw [if_neg h, Nat.add_zero] at hcnt
      exact hs.spawn_state id hcnt
  · intro l hocc
    simp only [setQueue_st, hstep_inst] at hocc
    simp only [setQueue_st, setQueue_rendering, setQueue_queue,
      setQueue_spawnedFor, hstep_pre, hstep_inst, hstep_handles, hstep_spawned]
    by_cases hll : l = l0
    · subst hll
      rw [Function.update_same]
      refine ⟨hhr, hhnotrest, ?_⟩
      rw [hcount handle]
      simp [hhc]
    · rw [Function.update_noteq hll] at hocc
      rw [Function.update_noteq hll]
      obtain ⟨h1, h2, h3⟩ := hs.slot_ok l hocc
      simp only [setQueue_st, setQueue_rendering, setQueue_queue, setQueue_spawnedFor] at h1 h2 h3
      have hne : s.st.scene_handles l ≠ handle := by
        intro h
        rw [h] at h3
        omega
      refine ⟨h1, ?_, ?_⟩
      · intro hmem
        exact h2 (List.mem_cons_of_mem _ hmem)
      · rw [hcount _]
        rw [if_neg hne, Nat.add_zero]
        exact h3
  · intro l l2 hne hocc hocc2
    simp only [setQueue_st, hstep_inst] at hocc hocc2
    simp only [setQueue_st, hstep_handles]
    by_cases hll : l = l0
    · subst hll
      rw [Function.update_same]
      have hll2 : l2 ≠ l0 := fun h => hne (by rw [h])
      rw [Function.update_noteq hll2] at hocc2
      rw [Function.update_noteq hll2]
      obtain ⟨hx1, hx2, hx3⟩ := hs.slot_ok l2 hocc2
      simp only [setQueue_st, setQueue_spawnedFor] at hx3
      intro h
      rw [← h] at hx3
      omega
    · rw [Function.update_noteq hll] at hocc
      rw [Function.update_noteq hll]
      by_cases hll2 : l2 = l0
      · subst hll2
        rw [Function.update_same]
        obtain ⟨hx1, hx2, hx3⟩ := hs.slot_ok l hocc
        simp only [setQueue_st, setQueue_spawnedFor] at hx3
        intro h
        rw [h] at hx3
        omega
      · rw [Function.update_noteq hll2] at hocc2
        rw [Function.update_noteq hll2]
        exact hs.slot_distinct l l2 hne hocc hocc2

theorem inv_admissionGo (q : List Nat) (s : Sys) (hs : Inv (setQueue s q)) :
    Inv (admissionGo q s) := by
  induction q generalizing s with
  | nil => exact hs
  | cons handle rest ih =>
    unfold admissionGo
    by_cases hf : is_full s.st
    · simp only [hf, if_true]
      exact hs
    · simp only [hf, if_false]
      have hnf : is_full s.st = false := by
        cases h : is_full s.st
        · rfl
        · exact absurd h (by simpa using hf)
      exact ih (admitOne handle s) (inv_admitOne s handle rest hs hnf)

theorem inv_admission (s : Sys) (hs : Inv s) : Inv (admission s) :=
  inv_admissionGo s.pre.queue s hs

/-! ### Completion phase: every drained event finds an occupied slot, and
the invariant is preserved. -/

theorem free_al (st : PreviewSceneState) (layer : Nat) (c : Commands) :
    (free st layer c).1.available_layers = st.available_layers ||| (1 <<< layer) := rfl

theorem free_inst (st : PreviewSceneState) (layer : Nat) (c : Commands) :
    (free st layer c).1.scene_instances =
      Function.update st.scene_instances layer none := rfl

theorem free_applied (st : PreviewSceneState) (layer : Nat) (c : Commands) :
    (free st layer c).1.applied_layer =
      Function.update st.applied_layer layer false := rfl

theorem free_handles (st : PreviewSceneState) (layer : Nat) (c : Commands) :
    (free st layer c).1.scene_handles = st.scene_handles := rfl

theorem free_targets (st : PreviewSceneState) (layer : Nat) (c : Commands) :
    (free st layer c).1.render_targets = st.render_targets := rfl

theorem free_log (st : PreviewSceneState) (layer : Nat) (c : Commands) :
    (free st layer c).2.log =
      c.log ++ [Cmd.despawn (st.lights layer), Cmd.despawn (st.cameras layer)] := rfl

theorem handleEvent_eq (s : Sys) (layer inst : Nat)
    (hinst : s.st.scene_instances layer = some inst) :
    handleEvent s layer = some
      { s with
        pre := { s.pre with
          rendering := s.pre.rendering.erase (s.st.scene_handles layer),
          rendered := insertAssoc s.pre.rendered (s.st.scene_handles layer)
            (s.st.render_targets layer) }
        st := (free s.st layer s.cmds).1
        cmds := (free s.st layer s.cmds).2
        despawned := s.despawned ++ [inst]
        counters := Function.update s.counters layer none } := by
  simp [handleEvent, hinst]

theorem inv_handleEvent (s : Sys) (layer : Nat) (rest : List Nat)
    (hs : Inv (setEvents s (layer :: rest))) :
    ∃ s2, handleEvent s layer = some s2 ∧ s2.events = s.events ∧
      s2.spawnedFor = s.spawnedFor ∧ Inv (setEvents s2 rest) := by
  obtain ⟨hlt, hocc, hcnone⟩ := hs.ev_ok layer (by simp)
  simp only [setEvents_st, setEvents_counters] at hocc hcnone
  obtain ⟨inst, hinst⟩ := Option.isSome_iff_exists.mp hocc
  obtain ⟨hshr, hshq, hshc⟩ := hs.slot_ok layer (by simp only [setEvents_st]; rw [hinst]; rfl)
  simp only [setEvents_st, setEvents_rendering, setEvents_queue,
    setEvents_spawnedFor] at hshr hshq hshc
  have hal : s.st.available_layers < 256 := hs.al_lt
  have hln : layer ∉ rest := (List.nodup_cons.mp hs.ev_nodup).1
  rw [handleEvent_eq s layer inst hinst]
  refine ⟨_, rfl, rfl, rfl, ?_⟩
  constructor
  · show (free s.st layer s.cmds).1.available_layers < 256
    rw [free_al]
    exact setBit_lt _ hal _ hlt
  · intro l hl
    show (free s.st layer s.cmds).1.available_layers.testBit l = true ↔ _
    rw [free_al]
    rw [setBit_testBit _ hal _ hlt _ hl]
    simp only [setEvents_st, free_inst]
    by_cases hll : l = layer
    · subst hll
      simp
    · rw [Function.update_noteq hll]
      have hb : (l == layer) = false := beq_eq_false_iff_ne.mpr hll
      rw [hb]
      simp only [Bool.or_false]
      exact hs.bit_iff l hl
  · intro l hl
    simp only [setEvents_st, free_inst]
    have hll : l ≠ layer := by omega
    rw [Function.update_noteq hll]
    exact hs.hi_none l hl
  · intro l hnone
    simp only [setEvents_st, free_inst] at hnone
    simp only [setEvents_st, setEvents_counters, free_inst, free_applied]
    by_cases hll : l = layer
    · subst hll
      rw [Function.update_same, Function.update_same]
      exact ⟨rfl, rfl⟩
    · rw [Function.update_noteq hll] at hnone
      rw [Function.update_noteq hll, Function.update_noteq hll]
      exact hs.free_clean l hnone
  · intro l hlev
    simp only [setEvents_events] at hlev
    obtain ⟨h1, h2, h3⟩ := hs.ev_ok l (List.mem_cons_of_mem _ hlev)
    simp only [setEvents_st, setEvents_counters] at h2 h3
    have hll : l ≠ layer := by
      intro h
      subst h
      exact hln hlev
    simp only [setEvents_st, setEvents_counters, free_inst]
    rw [Function.update_noteq hll, Function.update_noteq hll]
    exact ⟨h1, h2, h3⟩
  · exact (List.nodup_cons.mp hs.ev_nodup).2
  · exact hs.q_nodup
  · intro id hid
    obtain ⟨h1, h2⟩ := hs.q_ok id hid
    simp only [setEvents_rendering, setEvents_spawnedFor] at h1 h2
    have hne : id ≠ s.st.scene_handles layer := by
      intro h
      rw [← h] at hshq
      exact hshq hid
    exact ⟨(List.mem_erase_of_ne hne).mpr h1, h2⟩
  · exact hs.spawn_le
  · intro id hcnt
    simp only [setEvents_spawnedFor] at hcnt
    by_cases h : id = s.st.scene_handles layer
    · subst h
      right
      show (lookupAssoc (insertAssoc s.pre.rendered (s.st.scene_handles layer)
        (s.st.render_targets layer)) (s.st.scene_handles layer)).isSome = true
      rw [lookupAssoc_insertAssoc_self]
      rfl
    · rcases hs.spawn_state id hcnt with h2 | h2
      · exact Or.inl ((List.mem_erase_of_ne h).mpr h2)
      · right
        show (lookupAssoc (insertAssoc s.pre.rendered (s.st.scene_handles layer)
          (s.st.render_targets layer)) id).isSome = true
        rw [lookupAssoc_insertAssoc_ne _ _ _ _ h]
        exact h2
  · intro l hlocc
    simp only [setEvents_st, free_inst] at hlocc
    have hll : l ≠ layer := by
      intro h
      rw [h, Function.update_same] at hlocc
      simp at hlocc
    rw [Function.update_noteq hll] at hlocc
    obtain ⟨h1, h2, h3⟩ := hs.slot_ok l hlocc
    simp only [setEvents_st, setEvents_rendering, setEvents_queue,
      setEvents_spawnedFor] at h1 h2 h3
    have hocc' : (s.st.scene_instances layer).isSome = true := by
      rw [hinst]; rfl
    have hnesh : s.st.scene_handles l ≠ s.st.scene_handles layer :=
      hs.slot_distinct l layer hll hlocc hocc'
    simp only [setEvents_st, free_handles]
    exact ⟨(List.mem_erase_of_ne hnesh).mpr h1, h2, h3⟩
  · intro l l2 hne hlocc hlocc2
    simp only [setEvents_st, free_inst] at hlocc hlocc2
    have hll : l ≠ layer := by
      intro h
      rw [h, Function.update_same] at hlocc
      simp at hlocc
    have hll2 : l2 ≠ layer := by
      intro h
      rw [h, Function.update_same] at hlocc2
      simp at hlocc2
    rw [Function.update_noteq hll] at hlocc
    rw [Function.update_noteq hll2] at hlocc2
    simp only [setEvents_st, free_handles]
    exact hs.slot_distinct l l2 hne hlocc hlocc2

theorem inv_completionPhase (evs : List Nat) (s : Sys)
    (hs : Inv (setEvents s evs)) :
    ∃ s2, completionPhase s evs = some s2 ∧ s2.events = s.events ∧
      s2.spawnedFor = s.spawnedFor ∧ Inv (setEvents s2 []) := by
  induction evs generalizing s with
  | nil => exact ⟨s, rfl, rfl, rfl, hs⟩
  | cons layer rest ih =>
    obtain ⟨s2, heq, hev, hsp, hinv⟩ := inv_handleEvent s layer rest hs
    obtain ⟨s3, heq3, hev3, hsp3, hinv3⟩ := ih s2 hinv
    refine ⟨s3, ?_, ?_, ?_, hinv3⟩
    · unfold completionPhase
      rw [heq]
      exact heq3
    · rw [hev3, hev]
    · rw [hsp3, hsp]

theorem setEvents_nil_self (s : Sys) (h : s.events = []) : setEvents s [] = s := by
  cases s
  simp only [setEvents]
  simp only [Sys.mk.injEq] at *
  simp_all

theorem inv_update_queue (s : Sys) (hs : Inv s) :
    ∃ s2, update_queue s = some s2 ∧ Inv s2 := by
  have h1 : Inv (admission s) := inv_admission s hs
  have h2 : Inv (setEvents (setEvents (admission s) []) (admission s).events) := by
    have : setEvents (setEvents (admission s) []) (admission s).events =
        admission s := by
      cases admission s
      rfl
    rw [this]
    exact h1
  obtain ⟨s2, heq, hev, hsp, hinv⟩ :=
    inv_completionPhase (admission s).events (setEvents (admission s) []) h2
  refine ⟨s2, heq, ?_⟩
  have hevnil : s2.events = [] := by
    rw [hev]
    rfl
  rw [← setEvents_nil_self s2 hevnil]
  exact hinv

/-! ### Counter and tagger systems preserve the invariant. -/

theorem counterEmit_isSome (ready : Nat → Bool) (s : Sys) (l : Nat)
    (h : counterEmit ready s l = true) :
    (s.st.scene_instances l).isSome = true := by
  unfold counterEmit at h
  cases hc : s.counters l with
  | none => rw [hc] at h; exact absurd h (by simp)
  | some n =>
      rw [hc] at h
      cases hi : s.st.scene_instances l with
      | none => rw [hi] at h; simp [instReady] at h
      | some i => rfl

theorem counterEmit_false_of_none (ready : Nat → Bool) (s : Sys) (l : Nat)
    (h : s.counters l = none) : counterEmit ready s l = false := by
  unfold counterEmit
  rw [h]

theorem counterStep_counters_none (ready : Nat → Bool) (s : Sys) (l : Nat)
    (h : s.counters l = none) : (counterStep ready s).counters l = none := by
  simp only [counterStep]
  rw [h]

theorem counterStep_counters_emit (ready : Nat → Bool) (s : Sys) (l : Nat)
    (h : counterEmit ready s l = true) :
    (counterStep ready s).counters l = none := by
  unfold counterEmit at h
  simp only [counterStep]
  cases hc : s.counters l with
  | none => rfl
  | some n =>
      rw [hc] at h
      simp only [Bool.and_eq_true, decide_eq_true_eq] at h
      rw [h.1]
      simp [h.2]

theorem inv_counterStep (ready : Nat → Bool) (s : Sys) (hs : Inv s) :
    Inv (counterStep ready s) := by
  have hstc : (counterStep ready s).st = s.st := rfl
  have hprec : (counterStep ready s).pre = s.pre := rfl
  have hspc : (counterStep ready s).spawnedFor = s.spawnedFor := rfl
  constructor
  · exact hs.al_lt
  · exact hs.bit_iff
  · exact hs.hi_none
  · intro l hnone
    rw [hstc] at hnone
    refine ⟨(hs.free_clean l hnone).1, ?_⟩
    exact counterStep_counters_none ready s l (hs.free_clean l hnone).2
  · intro l hlev
    have hlev2 : l ∈ s.events ++
        (List.range 8).filter (fun layer => counterEmit ready s layer) := hlev
    rcases List.mem_append.mp hlev2 with hold | hnew
    · obtain ⟨h1, h2, h3⟩ := hs.ev_ok l hold
      exact ⟨h1, h2, counterStep_counters_none ready s l h3⟩
    · obtain ⟨hr, hemit⟩ := List.mem_filter.mp hnew
      have hl8 : l < 8 := List.mem_range.mp hr
      exact ⟨hl8, counterEmit_isSome ready s l hemit,
        counterStep_counters_emit ready s l hemit⟩
  · show (s.events ++ (List.range 8).filter
      (fun layer => counterEmit ready s layer)).Nodup
    refine List.Nodup.append hs.ev_nodup (List.Nodup.filter _ (List.nodup_range 8)) ?_
    intro x hx hx2
    obtain ⟨_, _, h3⟩ := hs.ev_ok x hx
    obtain ⟨_, hemit⟩ := List.mem_filter.mp hx2
    rw [counterEmit_false_of_none ready s x h3] at hemit
    exact Bool.noConfusion hemit
  · exact hs.q_nodup
  · exact hs.q_ok
  · exact hs.spawn_le
  · exact hs.spawn_state
  · exact hs.slot_ok
  · exact hs.slot_distinct

theorem tagNow_false_of_none (ready : Nat → Bool) (s : Sys) (l : Nat)
    (h : s.st.scene_instances l = none) : tagNow ready s l = false := by
  unfold tagNow
  rw [h]

theorem inv_taggerStep (ready : Nat → Bool) (s : Sys) (hs : Inv s) :
    Inv (taggerStep ready s) := by
  have hinst : (taggerStep ready s).st.scene_instances = s.st.scene_instances := rfl
  have hal : (taggerStep ready s).st.available_layers = s.st.available_layers := rfl
  have hc : (taggerStep ready s).counters = s.counters := rfl
  have hpre : (taggerStep ready s).pre = s.pre := rfl
  have hev : (taggerStep ready s).events = s.events := rfl
  have hsh : (taggerStep ready s).st.scene_handles = s.st.scene_handles := rfl
  constructor
  · exact hs.al_lt
  · exact hs.bit_iff
  · exact hs.hi_none
  · intro l hnone
    rw [hinst] at hnone
    refine ⟨?_, (hs.free_clean l hnone).2⟩
    show (if decide (l < 8) && tagNow ready s l then true
      else s.st.applied_layer l) = false
    rw [tagNow_false_of_none ready s l hnone]
    simp only [Bool.and_false, if_false]
    exact (hs.free_clean l hnone).1
  · exact hs.ev_ok
  · exact hs.ev_nodup
  · exact hs.q_nodup
  · exact hs.q_ok
  · exact hs.spawn_le
  · exact hs.spawn_state
  · exact hs.slot_ok
  · exact hs.slot_distinct

theorem inv_tickO (ready : Nat → Bool) (s s2 : Sys) (hs : Inv s)
    (h : tickO ready s = some s2) : Inv s2 := by
  obtain ⟨s1, heq, hinv⟩ := inv_update_queue s hs
  unfold tickO at h
  rw [heq] at h
  simp only [Option.some.injEq] at h
  rw [← h]
  exact inv_counterStep ready _ (inv_taggerStep ready s1 hinv)

/-- Every reachable scheduler state satisfies the global invariant. -/
theorem reachable_inv (s : Sys) (hs : Reachable s) : Inv s := by
  induction hs with
  | init => exact inv_init
  | request s handle _ ih => exact inv_reqStep s ih handle
  | tick s s2 ready _ hstep ih => exact inv_tickO ready s s2 ih hstep

/-! ### Per-layer characterization of the settle-counter system. -/

theorem count_filter_range8 (p : Nat → Bool) (l : Nat) :
    ((List.range 8).filter p).count l =
      if l ∈ (List.range 8).filter p then 1 else 0 := by
  by_cases h : l ∈ (List.range 8).filter p
  · rw [if_pos h]
    exact List.count_eq_one_of_mem (List.Nodup.filter _ (List.nodup_range 8)) h
  · rw [if_neg h]
    exact List.count_eq_zero_of_not_mem h

theorem counterStep_st (r : Nat → Bool) (s : Sys) : (counterStep r s).st = s.st := rfl

theorem counterStep_events_count (r : Nat → Bool) (s : Sys) (l : Nat) :
    (counterStep r s).events.count l =
      s.events.count l +
        (if l ∈ (List.range 8).filter (fun j => counterEmit r s j) then 1 else 0) := by
  show (s.events ++ _).count l = _
  rw [List.count_append, count_filter_range8]

theorem counterEmit_eq (r : Nat → Bool) (s : Sys) (l inst n : Nat)
    (hinst : s.st.scene_instances l = some inst) (hc : s.counters l = some n) :
    counterEmit r s l = (r inst && decide (8 ≤ n + 1)) := by
  unfold counterEmit
  rw [hc, hinst]
  rfl

theorem counterStep_counters_some (r : Nat → Bool) (s : Sys) (l inst n : Nat)
    (hinst : s.st.scene_instances l = some inst) (hc : s.counters l = some n) :
    (counterStep r s).counters l =
      if r inst then (if 8 ≤ n + 1 then none else some (n + 1)) else some n := by
  show (match s.counters l with
    | none => none
    | some m => if instReady r (s.st.scene_instances l) then
        if PREVIEW_RENDER_FRAMES ≤ m + 1 then none else some (m + 1)
      else some m) = _
  rw [hc, hinst]
  rfl

theorem iterCounter_st (rs : List (Nat → Bool)) (s : Sys) :
    (iterCounter rs s).st = s.st := by
  induction rs generalizing s with
  | nil => rfl
  | cons r rs ih => exact ih (counterStep r s)

theorem iterCounter_char (rs : List (Nat → Bool)) (l inst : Nat) (hl : l < 8) :
    ∀ s : Sys, s.st.scene_instances l = some inst →
      (∀ n, n < 8 → s.counters l = some n →
        (if n + rs.countP (fun r => r inst) < 8 then
          (iterCounter rs s).counters l = some (n + rs.countP (fun r => r inst)) ∧
            (iterCounter rs s).events.count l = s.events.count l
         else
          (iterCounter rs s).counters l = none ∧
            (iterCounter rs s).events.count l = s.events.count l + 1)) ∧
      (s.counters l = none →
        (iterCounter rs s).counters l = none ∧
          (iterCounter rs s).events.count l = s.events.count l) := by
  induction rs with
  | nil =>
    intro s hinst
    constructor
    · intro n hn hc
      simp only [List.countP_nil, Nat.add_zero]
      rw [if_pos (by omega)]
      exact ⟨hc, rfl⟩
    · intro hc
      exact ⟨hc, rfl⟩
  | cons r rs ih =>
    intro s hinst
    have hinst2 : (counterStep r s).st.scene_instances l = some inst := hinst
    obtain ⟨ihs, ihn⟩ := ih (counterStep r s) hinst2
    constructor
    · intro n hn hc
      have hcnt : (counterStep r s).events.count l =
          s.events.count l +
            (if l ∈ (List.range 8).filter (fun j => counterEmit r s j) then 1 else 0) :=
        counterStep_events_count r s l
      have hcc := counterStep_counters_some r s l inst n hinst hc
      have hemit := counterEmit_eq r s l inst n hinst hc
      cases hr : r inst with
      | false =>
        rw [hr] at hcc hemit
        simp only [Bool.false_and] at hemit
        have hnotmem : l ∉ (List.range 8).filter (fun j => counterEmit r s j) := by
          intro hmem
          obtain ⟨_, h2⟩ := List.mem_filter.mp hmem
          rw [hemit] at h2
          exact Bool.noConfusion h2
        rw [if_neg hnotmem, Nat.add_zero] at hcnt
        rw [if_neg (by decide)] at hcc
        have hstep := ihs n hn hcc
        have hk : (r :: rs).countP (fun r => r inst) =
            rs.countP (fun r => r inst) := by
          simp [List.countP_cons, hr]
        rw [hk]
        rw [hcnt] at hstep
        exact hstep
      | true =>
        rw [hr] at hcc hemit
        simp only [Bool.true_and] at hemit
        rw [if_pos rfl] at hcc
        have hk : (r :: rs).countP (fun r => r inst) =
            rs.countP (fun r => r inst) + 1 := by
          simp [List.countP_cons, hr]
        obtain ⟨k, hkdef⟩ : ∃ k, rs.countP (fun r => r inst) = k := ⟨_, rfl⟩
        rw [hk, hkdef]
        by_cases h8 : 8 ≤ n + 1
        · rw [if_pos h8] at hcc
          have hmem : l ∈ (List.range 8).filter (fun j => counterEmit r s j) := by
            rw [List.mem_filter]
            refine ⟨List.mem_range.mpr hl, ?_⟩
            rw [hemit]
            simp [h8]
          rw [if_pos hmem] at hcnt
          obtain ⟨hfin1, hfin2⟩ := ihn hcc
          have hnlt : ¬ n + (k + 1) < 8 := by clear hkdef hk; omega
          rw [if_neg hnlt]
          rw [hcnt] at hfin2
          exact ⟨hfin1, hfin2⟩
        · rw [if_neg h8] at hcc
          have hnotmem : l ∉ (List.range 8).filter (fun j => counterEmit r s j) := by
            intro hmem
            obtain ⟨_, h2⟩ := List.mem_filter.mp hmem
            rw [hemit] at h2
            simp at h2
            exact h8 (Nat.succ_le_succ h2)
          rw [if_neg hnotmem, Nat.add_zero] at hcnt
          have hn1 : n + 1 < 8 := by clear hkdef hk; omega
          have hstep := ihs (n + 1) hn1 hcc
          rw [hcnt, hkdef] at hstep
          have harith : n + 1 + k = n + (k + 1) := by clear hkdef hk hstep; omega
          rw [harith] at hstep
          exact hstep
    · intro hc
      have hcc : (counterStep r s).counters l = none :=
        counterStep_counters_none r s l hc
      have hemit : counterEmit r s l = false := counterEmit_false_of_none r s l hc
      have hnotmem : l ∉ (List.range 8).filter (fun j => counterEmit r s j) := by
        intro hmem
        obtain ⟨_, h2⟩ := List.mem_filter.mp hmem
        rw [hemit] at h2
        exact Bool.noConfusion h2
      have hcnt := counterStep_events_count r s l
      rw [if_neg hnotmem, Nat.add_zero] at hcnt
      obtain ⟨h1, h2⟩ := ihn hcc
      rw [hcnt] at h2
      exact ⟨h1, h2⟩

/-! ### Layer tagger: idempotence machinery. -/

theorem taggerStep_applied (r : Nat → Bool) (s : Sys) (l : Nat) :
    (taggerStep r s).st.applied_layer l =
      (if decide (l < 8) && tagNow r s l then true else s.st.applied_layer l) := rfl

theorem taggerStep_tagLog_count (r : Nat → Bool) (s : Sys) (l : Nat) :
    (taggerStep r s).tagLog.count l =
      s.tagLog.count l +
        (if l ∈ (List.range 8).filter (fun j => tagNow r s j) then 1 else 0) := by
  show (s.tagLog ++ _).count l = _
  rw [List.count_append, count_filter_range8]

theorem tagNow_applied_false (r : Nat → Bool) (s : Sys) (l : Nat)
    (h : tagNow r s l = true) : s.st.applied_layer l = false := by
  unfold tagNow at h
  cases hi : s.st.scene_instances l with
  | none => rw [hi] at h; exact Bool.noConfusion h
  | some i =>
      rw [hi] at h
      simp only [Bool.and_eq_true, Bool.not_eq_eq_eq_not, Bool.not_true] at h
      exact h.1

theorem tagNow_false_of_applied (r : Nat → Bool) (s : Sys) (l : Nat)
    (h : s.st.applied_layer l = true) : tagNow r s l = false := by
  unfold tagNow
  cases hi : s.st.scene_instances l with
  | none => rfl
  | some i => rw [h]; rfl

theorem taggerStep_measure (r : Nat → Bool) (s : Sys) (l : Nat) :
    (taggerStep r s).tagLog.count l +
        (if (taggerStep r s).st.applied_layer l = true then 0 else 1) ≤
      s.tagLog.count l + (if s.st.applied_layer l = true then 0 else 1) := by
  rw [taggerStep_tagLog_count, taggerStep_applied]
  by_cases hmem : l ∈ (List.range 8).filter (fun j => tagNow r s j)
  · obtain ⟨hr8, htag⟩ := List.mem_filter.mp hmem
    have hl8 : l < 8 := List.mem_range.mp hr8
    have happ := tagNow_applied_false r s l htag
    rw [if_pos hmem]
    simp [hl8, htag, happ]
  · rw [if_neg hmem, Nat.add_zero]
    by_cases hcond : (decide (l < 8) && tagNow r s l) = true
    · exfalso
      apply hmem
      rw [List.mem_filter]
      simp only [Bool.and_eq_true, decide_eq_true_eq] at hcond
      exact ⟨List.mem_range.mpr hcond.1, hcond.2⟩
    · have hcond2 : (decide (l < 8) && tagNow r s l) = false :=
        Bool.not_eq_true _ ▸ Bool.of_not_eq_true hcond
      rw [hcond2]
      simp

theorem taggerStep_applied_mono (r : Nat → Bool) (s : Sys) (l : Nat)
    (h : s.st.applied_layer l = true) :
    (taggerStep r s).st.applied_layer l = true ∧
      (taggerStep r s).tagLog.count l = s.tagLog.count l := by
  have htagf := tagNow_false_of_applied r s l h
  constructor
  · rw [taggerStep_applied, htagf]
    simp [h]
  · rw [taggerStep_tagLog_count]
    have hnotmem : l ∉ (List.range 8).filter (fun j => tagNow r s j) := by
      intro hmem
      obtain ⟨_, h2⟩ := List.mem_filter.mp hmem
      rw [htagf] at h2
      exact Bool.noConfusion h2
    rw [if_neg hnotmem, Nat.add_zero]

theorem iterTagger_measure (rs : List (Nat → Bool)) (l : Nat) :
    ∀ s : Sys, (iterTagger rs s).tagLog.count l +
        (if (iterTagger rs s).st.applied_layer l = true then 0 else 1) ≤
      s.tagLog.count l + (if s.st.applied_layer l = true then 0 else 1) := by
  induction rs with
  | nil => intro s; exact le_refl _
  | cons r rs ih =>
      intro s
      exact le_trans (ih (taggerStep r s)) (taggerStep_measure r s l)

theorem iterTagger_mono (rs : List (Nat → Bool)) (l : Nat) :
    ∀ s : Sys, s.st.applied_layer l = true →
      (iterTagger rs s).st.applied_layer l = true ∧
        (iterTagger rs s).tagLog.count l = s.tagLog.count l := by
  induction rs with
  | nil => intro s h; exact ⟨h, rfl⟩
  | cons r rs ih =>
      intro s h
      obtain ⟨h1, h2⟩ := taggerStep_applied_mono r s l h
      obtain ⟨h3, h4⟩ := ih (taggerStep r s) h1
      refine ⟨h3, ?_⟩
      show (iterTagger rs (taggerStep r s)).tagLog.count l = s.tagLog.count l
      rw [h4, h2]

/-! ### Reachability of the concrete fixtures. -/

theorem tickO_reach (s : Sys) (hs : Reachable s) (r : Nat → Bool) :
    ∃ s2, tickO r s = some s2 ∧ Reachable s2 := by
  obtain ⟨s1, heq, _⟩ := inv_update_queue s (reachable_inv s hs)
  refine ⟨counterStep r (taggerStep r s1), ?_, ?_⟩
  · unfold tickO
    rw [heq]
  · refine Reachable.tick s _ r hs ?_
    unfold tickO
    rw [heq]

theorem tickReady_reach (r : Nat → Bool) (s : Sys) (hs : Reachable s) :
    Reachable (tickReady r s) := by
  obtain ⟨s2, heq, hr2⟩ := tickO_reach s hs r
  unfold tickReady
  rw [heq]
  exact hr2

theorem runTicks_reach (n : Nat) (s : Sys) (hs : Reachable s) :
    Reachable (runTicks n s) := by
  induction n generalizing s with
  | zero => exact hs
  | succ n ih => exact ih _ (tickReady_reach _ s hs)

/-! ### Additional small helpers for the claim theorems. -/

theorem counterEmit_false_of_not_ready (r : Nat → Bool) (s : Sys) (l : Nat)
    (h : instReady r (s.st.scene_instances l) = false) :
    counterEmit r s l = false := by
  unfold counterEmit
  cases hc : s.counters l with
  | none => rfl
  | some n => rw [h]; rfl

theorem u8tz_zero_or : ∀ l, l < 8 →
    (u8TrailingZeros (0 ||| (1 <<< l)) == PREVIEW_LAYERS_COUNT) = false := by decide

/-! ### The claims. -/

/-- C1: de-duplication.  On every reachable state, any scene id has been
spawned at most once and sits in the pending queue at most once; and a
request for an id that is marked rendering and not yet cached is a
complete no-op on the state, so repeated requests before completion never
enqueue or spawn again. -/
theorem requestPreview_dedup (s : Sys) (hs : Reachable s) (id : Nat) :
    s.spawnedFor.count id ≤ 1 ∧
    s.pre.queue.count id ≤ 1 ∧
    (id ∈ s.pre.rendering → lookupAssoc s.pre.rendered id = none →
      reqStep s id = s) := by
  have hinv := reachable_inv s hs
  refine ⟨hinv.spawn_le id, ?_, ?_⟩
  · exact List.nodup_iff_count_le_one.mp hinv.q_nodup id
  · intro hr hl
    have hg : get_or_schedule s.pre id = (none, s.pre) := by
      unfold get_or_schedule
      rw [hl]
      rw [if_pos hr]
    unfold reqStep
    rw [hg]

theorem requestPreview_dedup_witness :
    (reqStep initSys 5).spawnedFor.count 5 ≤ 1 ∧
    (reqStep initSys 5).pre.queue.count 5 ≤ 1 ∧
    (5 ∈ (reqStep initSys 5).pre.rendering →
      lookupAssoc (reqStep initSys 5).pre.rendered 5 = none →
      reqStep (reqStep initSys 5) 5 = reqStep initSys 5) :=
  requestPreview_dedup (reqStep initSys 5)
    (Reachable.request initSys 5 Reachable.init) 5

/-- C2: cache hit.  If an id is cached, `get_or_schedule` returns the
stored render target and the whole state unchanged (pending queue,
rendering set and cached map untouched), so every subsequent call returns
the same target with no re-enqueue and no re-spawn. -/
theorem requestPreview_cached_hit (p : PrerenderedScenes) (id target : Nat)
    (hcached : lookupAssoc p.rendered id = some target) :
    get_or_schedule p id = (some target, p) := by
  unfold get_or_schedule
  rw [hcached]

theorem requestPreview_cached_hit_witness :
    get_or_schedule { rendered := [(3, 7)], rendering := [], queue := [] } 3 =
      (some 7, { rendered := [(3, 7)], rendering := [], queue := [] }) :=
  requestPreview_cached_hit { rendered := [(3, 7)], rendering := [], queue := [] } 3 7 rfl

/-- C3 (counterexample): from the reachable state in which scene 5
occupies slot 0 with a fresh settle counter, a readiness trace of 7 ready
ticks, one not-ready tick, then 1 ready tick (9 ticks, longest run of
consecutive ready ticks is 7 < 8) still makes the counter system emit the
completion event for layer 0: the counter accumulates across the gap
instead of requiring 8 consecutive ready ticks, refuting the claim as
stated. -/
theorem settle_counter_nonconsecutive_emit :
    Reachable sysOcc ∧
    (iterCounter rsGap sysOcc).events = [0] ∧
    maxRun (rsGap.map (fun r => r 0)) = 7 := by
  refine ⟨?_, by decide, by decide⟩
  exact tickReady_reach (fun _ => false) (reqStep initSys 5)
    (Reachable.request initSys 5 Reachable.init)

/-- C3 (amended): a completion signal for a slot is emitted exactly when
the instantiation has been observed ready on at least 8 cumulative (not
necessarily consecutive) ticks since the counter started at zero; the
counter does not advance on a tick where the instantiation is not ready,
but it is not reset by such a tick either. -/
theorem settle_counter_cumulative_threshold (rs : List (Nat → Bool)) (s : Sys)
    (l inst : Nat) (hl : l < 8) (hinst : s.st.scene_instances l = some inst)
    (hc : s.counters l = some 0) (hev : s.events.count l = 0) :
    ((iterCounter rs s).events.count l = 1 ↔
      8 ≤ rs.countP (fun r => r inst)) ∧
    ((iterCounter rs s).events.count l ≤ 1) ∧
    (∀ r s2, instReady r (s2.st.scene_instances l) = false →
      (counterStep r s2).counters l = s2.counters l ∧
      (counterStep r s2).events.count l = s2.events.count l) := by
  have hch := (iterCounter_char rs l inst hl s hinst).1 0 (by decide) hc
  rw [Nat.zero_add] at hch
  have hnotready : ∀ r s2, instReady r (s2.st.scene_instances l) = false →
      (counterStep r s2).counters l = s2.counters l ∧
      (counterStep r s2).events.count l = s2.events.count l := by
    intro r s2 hnr
    constructor
    · show (match s2.counters l with
        | none => none
        | some m => if instReady r (s2.st.scene_instances l) then
            if PREVIEW_RENDER_FRAMES ≤ m + 1 then none else some (m + 1)
          else some m) = s2.counters l
      cases hcc : s2.counters l with
      | none => rfl
      | some m =>
          rw [hnr]
          rfl
    · have hcnt := counterStep_events_count r s2 l
      have hnotmem : l ∉ (List.range 8).filter (fun j => counterEmit r s2 j) := by
        intro hmem
        obtain ⟨_, h2⟩ := List.mem_filter.mp hmem
        rw [counterEmit_false_of_not_ready r s2 l hnr] at h2
        exact Bool.noConfusion h2
      rw [if_neg hnotmem, Nat.add_zero] at hcnt
      exact hcnt
  by_cases hk : rs.countP (fun r => r inst) < 8
  · rw [if_pos hk] at hch
    obtain ⟨h1, h2⟩ := hch
    rw [hev] at h2
    refine ⟨?_, ?_, hnotready⟩
    · constructor
      · intro h
        rw [h2] at h
        exact absurd h (by decide)
      · intro h
        exact absurd h (Nat.not_le.mpr hk)
    · rw [h2]
      decide
  · rw [if_neg hk] at hch
    obtain ⟨h1, h2⟩ := hch
    rw [hev, Nat.zero_add] at h2
    refine ⟨?_, le_of_eq h2, hnotready⟩
    constructor
    · intro _
      exact Nat.le_of_not_lt hk
    · intro _
      exact h2

theorem settle_counter_cumulative_threshold_witness :
    (((iterCounter rs8 sysOcc).events.count 0 = 1) ↔
      8 ≤ rs8.countP (fun r => r 0)) ∧
    ((iterCounter rs8 sysOcc).events.count 0 ≤ 1) ∧
    (∀ r s2, instReady r (s2.st.scene_instances 0) = false →
      (counterStep r s2).counters 0 = s2.counters 0 ∧
      (counterStep r s2).events.count 0 = s2.events.count 0) :=
  settle_counter_cumulative_threshold rs8 sysOcc 0 0 (by decide) (by decide)
    (by decide) (by decide)

/-- C4: `occupy` on a full pool is a no-op returning the state and
commands unchanged; otherwise it picks the lowest-index free slot (the
least set bit of the free mask), binds the scene handle, the
instantiation handle and the render target to that slot, and spawns the
slot's light and camera tagged with visibility layer
`BASE_PREVIEW_LAYER + index` (128 + index), the camera targeting the
render target. -/
theorem occupy_lowest_free_slot (st : PreviewSceneState) (c : Commands)
    (handle instanceId renderTarget : Nat) (hal : st.available_layers < 256) :
    (is_full st = true → occupy st handle instanceId renderTarget c = (st, c)) ∧
    (is_full st = false →
      u8TrailingZeros st.available_layers < 8 ∧
      st.available_layers.testBit (u8TrailingZeros st.available_layers) = true ∧
      (∀ j, j < u8TrailingZeros st.available_layers →
        st.available_layers.testBit j = false) ∧
      (occupy st handle instanceId renderTarget c).1.scene_handles
        (u8TrailingZeros st.available_layers) = handle ∧
      (occupy st handle instanceId renderTarget c).1.scene_instances
        (u8TrailingZeros st.available_layers) = some instanceId ∧
      (occupy st handle instanceId renderTarget c).1.render_targets
        (u8TrailingZeros st.available_layers) = renderTarget ∧
      (occupy st handle instanceId renderTarget c).2.log = c.log ++
        [Cmd.spawnLight (u8TrailingZeros st.available_layers + BASE_PREVIEW_LAYER)
          c.nextEntity,
         Cmd.spawnCamera (u8TrailingZeros st.available_layers + BASE_PREVIEW_LAYER)
          renderTarget (c.nextEntity + 1)]) := by
  constructor
  · intro h
    unfold occupy
    rw [if_pos h]
  · intro h
    obtain ⟨h1, h2, h3⟩ := not_full_spec st hal h
    refine ⟨h1, h2, h3, ?_, ?_, ?_, ?_⟩ <;>
      simp [occupy, h, Function.update_same]

theorem occupy_lowest_free_slot_witness :
    initState.available_layers < 256 ∧
    (occupy initState 5 6 7 cmds0).1.scene_instances 0 = some 6 ∧
    (occupy initState 5 6 7 cmds0).2.log =
      [Cmd.spawnLight 128 1, Cmd.spawnCamera 128 7 2] := by
  refine ⟨by decide, ?_, ?_⟩
  · exact ((occupy_lowest_free_slot initState cmds0 5 6 7 (by decide)).2
      (by decide)).2.2.2.2.1
  · exact ((occupy_lowest_free_slot initState cmds0 5 6 7 (by decide)).2
      (by decide)).2.2.2.2.2.2

/-- C5 (counterexample): in the reachable state sysFreed (scene 5 was
requested, admitted to slot 0, completed and released), slot 0 is free
(its bit is set and it holds no instantiation) yet it still retains the
stale scene handle 5 and stale render target 1 from the finished
occupation, so a free slot does not have all of its fields empty and
release does not clear all fields. -/
theorem release_retains_stale_fields :
    Reachable sysFreed ∧
    sysFreed.st.available_layers.testBit 0 = true ∧
    sysFreed.st.scene_instances 0 = none ∧
    sysFreed.st.scene_handles 0 = 5 ∧
    sysFreed.st.render_targets 0 = 1 := by
  refine ⟨?_, by decide, by decide, by decide, by decide⟩
  exact runTicks_reach 9 (reqStep initSys 5)
    (Reachable.request initSys 5 Reachable.init)

/-- C5 (amended): on every reachable state a slot without an
instantiation handle has `applied_layer` false and no settle counter, and
an occupied slot holds its instantiation; `free` clears the instantiation
handle and `applied_layer` and returns the slot to the pool, but leaves
the stale scene handle and render target entries in place. -/
theorem release_clears_instance_only (s : Sys) (hs : Reachable s) :
    (∀ l, s.st.scene_instances l = none →
      s.st.applied_layer l = false ∧ s.counters l = none) ∧
    (∀ st c l, (free st l c).1.scene_instances l = none ∧
      (free st l c).1.applied_layer l = false ∧
      (free st l c).1.scene_handles = st.scene_handles ∧
      (free st l c).1.render_targets = st.render_targets) := by
  refine ⟨(reachable_inv s hs).free_clean, ?_⟩
  intro st c l
  refine ⟨?_, ?_, rfl, rfl⟩
  · rw [free_inst, Function.update_same]
  · rw [free_applied, Function.update_same]

theorem release_clears_instance_only_witness :
    initSys.st.applied_layer 3 = false ∧ initSys.counters 3 = none :=
  (release_clears_instance_only initSys Reachable.init).1 3 rfl

/-- C6: the layer-tagging pass runs at most once per occupation: over any
sequence of `change_render_layers` runs the number of tagging passes for
a layer grows by at most one, and once `applied_layer` is true further
runs tag nothing for that layer and keep the flag true. -/
theorem layer_tag_at_most_once (rs : List (Nat → Bool)) (s : Sys) (l : Nat) :
    ((iterTagger rs s).tagLog.count l ≤ s.tagLog.count l + 1) ∧
    (s.st.applied_layer l = true →
      (iterTagger rs s).tagLog.count l = s.tagLog.count l ∧
      (iterTagger rs s).st.applied_layer l = true) := by
  constructor
  · have h := iterTagger_measure rs l s
    have e2 : (if s.st.applied_layer l = true then 0 else 1) ≤ 1 := by
      by_cases hb : s.st.applied_layer l = true <;> simp [hb]
    omega
  · intro h
    obtain ⟨h1, h2⟩ := iterTagger_mono rs l s h
    exact ⟨h2, h1⟩

theorem layer_tag_at_most_once_witness :
    (iterTagger rs8 sysOcc).tagLog.count 0 ≤ sysOcc.tagLog.count 0 + 1 :=
  (layer_tag_at_most_once rs8 sysOcc 0).1

/-- C8: each occupation emits at most one completion signal: starting
from a fresh zero settle counter, over any readiness trace the number of
completion events for the slot grows by at most one, and when the event
has fired the counter has been removed, so no second signal can fire for
the same occupation. -/
theorem completion_signal_at_most_once (rs : List (Nat → Bool)) (s : Sys)
    (l inst : Nat) (hl : l < 8) (hinst : s.st.scene_instances l = some inst)
    (hc : s.counters l = some 0) :
    (iterCounter rs s).events.count l ≤ s.events.count l + 1 ∧
    ((iterCounter rs s).events.count l = s.events.count l + 1 →
      (iterCounter rs s).counters l = none) := by
  have hch := (iterCounter_char rs l inst hl s hinst).1 0 (by decide) hc
  rw [Nat.zero_add] at hch
  by_cases hk : rs.countP (fun r => r inst) < 8
  · rw [if_pos hk] at hch
    obtain ⟨h1, h2⟩ := hch
    constructor
    · rw [h2]
      exact Nat.le_add_right _ 1
    · intro heq
      rw [h2] at heq
      exact absurd heq.symm (Nat.succ_ne_self _)
  · rw [if_neg hk] at hch
    exact ⟨le_of_eq hch.2, fun _ => hch.1⟩

theorem completion_signal_at_most_once_witness :
    (iterCounter rs8 sysOcc).events.count 0 ≤ sysOcc.events.count 0 + 1 ∧
    ((iterCounter rs8 sysOcc).events.count 0 = sysOcc.events.count 0 + 1 →
      (iterCounter rs8 sysOcc).counters 0 = none) :=
  completion_signal_at_most_once rs8 sysOcc 0 0 (by decide) (by decide) (by decide)

/-- C10: on every reachable state, every pending completion event refers
to a layer whose slot still holds its instantiation, so the completion
phase of `update_queue` never hits the `unwrap` panic: `update_queue`
always returns a state. -/
theorem completion_unwrap_safe (s : Sys) (hs : Reachable s) :
    (∀ l, l ∈ s.events → (s.st.scene_instances l).isSome = true) ∧
    (update_queue s).isSome = true := by
  have hinv := reachable_inv s hs
  constructor
  · intro l hl
    exact (hinv.ev_ok l hl).2.1
  · obtain ⟨s2, heq, _⟩ := inv_update_queue s hinv
    rw [heq]
    rfl

theorem completion_unwrap_safe_witness :
    (∀ l, l ∈ (runTicks 8 (reqStep initSys 5)).events →
      ((runTicks 8 (reqStep initSys 5)).st.scene_instances l).isSome = true) ∧
    (update_queue (runTicks 8 (reqStep initSys 5))).isSome = true :=
  completion_unwrap_safe (runTicks 8 (reqStep initSys 5))
    (runTicks_reach 8 (reqStep initSys 5) (Reachable.request initSys 5 Reachable.init))

/-- C9 (counterexample): freeing slot 0 twice in a row (occupy, free,
free again) completes normally both times with no assertion or failure of
any kind in this module: the second call re-clears the already-clear
fields, leaves the pool mask unchanged, and re-issues despawn commands
for the camera and light entities that the first call already despawned. -/
theorem double_release_no_guard :
    (free (free (occupy initState 5 6 7 cmds0).1 0
        (occupy initState 5 6 7 cmds0).2).1 0
      (free (occupy initState 5 6 7 cmds0).1 0
        (occupy initState 5 6 7 cmds0).2).2).2.log =
      [Cmd.spawnLight 128 1, Cmd.spawnCamera 128 7 2,
       Cmd.despawn 1, Cmd.despawn 2, Cmd.despawn 1, Cmd.despawn 2] ∧
    (free (free (occupy initState 5 6 7 cmds0).1 0
        (occupy initState 5 6 7 cmds0).2).1 0
      (free (occupy initState 5 6 7 cmds0).1 0
        (occupy initState 5 6 7 cmds0).2).2).1.scene_instances 0 = none ∧
    (free (free (occupy initState 5 6 7 cmds0).1 0
        (occupy initState 5 6 7 cmds0).2).1 0
      (free (occupy initState 5 6 7 cmds0).1 0
        (occupy initState 5 6 7 cmds0).2).2).1.available_layers = 255 := by
  refine ⟨?_, ?_, ?_⟩ <;> decide

/-- C9 (amended): `free` carries no double-free guard: called on a slot
that is already free it completes normally, re-sets the already-set free
bit, re-clears the instantiation and `applied_layer` fields, and issues
despawn commands for the slot's recorded (already despawned or
placeholder) camera and light entities; there is no debug assertion in
this module. -/
theorem release_unguarded (st : PreviewSceneState) (l : Nat) (c : Commands)
    (_hfree : st.scene_instances l = none) :
    (free st l c).1.scene_instances l = none ∧
    (free st l c).1.applied_layer l = false ∧
    (free st l c).1.available_layers = st.available_layers ||| (1 <<< l) ∧
    (free st l c).2.log = c.log ++
      [Cmd.despawn (st.lights l), Cmd.despawn (st.cameras l)] := by
  refine ⟨?_, ?_, rfl, rfl⟩
  · rw [free_inst, Function.update_same]
  · rw [free_applied, Function.update_same]

theorem release_unguarded_witness :
    (free initState 0 cmds0).1.scene_instances 0 = none ∧
    (free initState 0 cmds0).1.applied_layer 0 = false ∧
    (free initState 0 cmds0).1.available_layers =
      initState.available_layers ||| (1 <<< 0) ∧
    (free initState 0 cmds0).2.log = cmds0.log ++
      [Cmd.despawn (initState.lights 0), Cmd.despawn (initState.cameras 0)] :=
  release_unguarded initState 0 cmds0 rfl

theorem completionPhase_single (s : Sys) (l : Nat) :
    completionPhase s [l] = handleEvent s l := by
  unfold completionPhase
  cases handleEvent s l with
  | none => rfl
  | some s2 =>
      unfold completionPhase
      rfl

/-- C7: within one run of `update_queue` the admission loop runs strictly
before the completion events are drained: with a full pool, a pending
completion event for layer l and one queued scene q, the tick admits
nothing (even though the completion phase frees a slot during the same
tick), and only the next run of the admission phase admits q into the
freed slot. -/
theorem freed_slot_next_tick (s : Sys) (l q : Nat)
    (hal : s.st.available_layers < 256)
    (hfull : is_full s.st = true)
    (hev : s.events = [l]) (hl : l < 8)
    (hinst : (s.st.scene_instances l).isSome = true)
    (hq : s.pre.queue = [q]) :
    (admission s).spawnedFor = s.spawnedFor ∧
    ∃ s2, update_queue s = some s2 ∧ s2.spawnedFor = s.spawnedFor ∧
      is_full s2.st = false ∧
      (admission s2).spawnedFor = s.spawnedFor ++ [q] := by
  obtain ⟨inst, hinst2⟩ := Option.isSome_iff_exists.mp hinst
  have hal0 : s.st.available_layers = 0 := (is_full_eq_true_iff s.st hal).mp hfull
  have hadm : admission s = setQueue s [q] := by
    unfold admission
    rw [hq]
    unfold admissionGo
    rw [if_pos hfull]
  have hs0inst : (setEvents (setQueue s [q]) []).st.scene_instances l = some inst :=
    hinst2
  have hhe := handleEvent_eq (setEvents (setQueue s [q]) []) l inst hs0inst
  obtain ⟨s2, hs2, hsp2, hal2, hq2⟩ :
      ∃ s2, handleEvent (setEvents (setQueue s [q]) []) l = some s2 ∧
        s2.spawnedFor = s.spawnedFor ∧
        s2.st.available_layers = s.st.available_layers ||| (1 <<< l) ∧
        s2.pre.queue = [q] :=
    ⟨_, hhe, rfl, rfl, rfl⟩
  have hupd : update_queue s = some s2 := by
    show completionPhase (setEvents (admission s) []) (admission s).events = some s2
    rw [hadm]
    rw [show (setQueue s [q]).events = [l] from by rw [setQueue_events, hev]]
    rw [completionPhase_single]
    exact hs2
  have hnf : is_full s2.st = false := by
    unfold is_full
    rw [hal2, hal0]
    exact u8tz_zero_or l hl
  constructor
  · rw [hadm, setQueue_spawnedFor]
  · refine ⟨s2, hupd, hsp2, hnf, ?_⟩
    unfold admission
    rw [hq2]
    unfold admissionGo
    rw [hnf]
    rw [if_neg (by decide : ¬ false = true)]
    unfold admissionGo
    rw [setQueue_spawnedFor]
    show s2.spawnedFor ++ [q] = s.spawnedFor ++ [q]
    rw [hsp2]

theorem freed_slot_next_tick_witness :
    (admission sysFull).spawnedFor = sysFull.spawnedFor ∧
    ∃ s2, update_queue sysFull = some s2 ∧ s2.spawnedFor = sysFull.spawnedFor ∧
      is_full s2.st = false ∧
      (admission s2).spawnedFor = sysFull.spawnedFor ++ [9] :=
  freed_slot_next_tick sysFull 2 9 (by decide) (by decide) rfl (by decide)
    (by decide) rfl

end AssetPreview
